import Mathlib

/-!
Shallow embedding of the layout engine of the `plot` package
(`src/plot/plot.go`).  Device lengths (`vg.Length`, a floating-point
length in Go) are modelled as rationals; the floating-point value NaN,
which matters only for the axis-range arithmetic of `Add`, is modelled
by the dedicated type `GoFloat` below.
-/

/-- A point, as in the package's geometry file: two device lengths. -/
structure Point where
  X : ℚ
  Y : ℚ
deriving DecidableEq, Repr

/-- Modelled from the spec: a Drawing Region is a rectangle
`{Min : Point, Size : Point}` on a surface (§3, §4.1); the geometry
file of the repository is not under `src/`, so the rectangle and its
coordinate queries are taken from the spec's data model.  The canvas
reference is irrelevant to the layout claims and is omitted. -/
structure DrawArea where
  Min : Point
  Size : Point
deriving DecidableEq, Repr

/-- Modelled from the spec: `Max = Min + Size` (§3). -/
def DrawArea.Max (da : DrawArea) : Point :=
  ⟨da.Min.X + da.Size.X, da.Min.Y + da.Size.Y⟩

/-- Modelled from the spec: the region's horizontal coordinate query
`X(f) = Min + f·Size` (§4.1, §4.4 step 5). -/
def DrawArea.X (da : DrawArea) (x : ℚ) : ℚ :=
  x * da.Size.X + da.Min.X

/-- Modelled from the spec: the region's vertical coordinate query
`Y(f) = Min + f·Size` (§4.1). -/
def DrawArea.Y (da : DrawArea) (y : ℚ) : ℚ :=
  y * da.Size.Y + da.Min.Y

/-- A GlyphBox (src/plot/plot.go lines 288-295): an anchor `(X, Y)` in
normalized coordinates and an embedded offset rectangle; the embedded
`Rect` is flattened into `Min`/`Size` fields, matching Go's promoted
field access `b.Min.X`. -/
structure GlyphBox where
  X : ℚ
  Y : ℚ
  Min : Point
  Size : Point
deriving DecidableEq, Repr

/-- The loop of `leftMost` (src/plot/plot.go lines 205-215), with the
running minimum `minx` and the current best box `l` made explicit. -/
def leftMostGo (da : DrawArea) : List GlyphBox → ℚ → GlyphBox → GlyphBox
  | [], _, l => l
  | b :: bs, minx, l =>
    if da.X b.X + b.Min.X < minx ∧ 0 ≤ b.X then
      leftMostGo da bs (da.X b.X + b.Min.X) b
    else
      leftMostGo da bs minx l

/-- `leftMost` (src/plot/plot.go lines 205-215): the zero glyph box
(anchor 0, zero offset rectangle) is the sentinel start value. -/
def leftMost (da : DrawArea) (boxes : List GlyphBox) : GlyphBox :=
  leftMostGo da boxes da.Min.X ⟨0, 0, ⟨0, 0⟩, ⟨0, 0⟩⟩

/-- The loop of `rightMost` (src/plot/plot.go lines 192-202). -/
def rightMostGo (da : DrawArea) : List GlyphBox → ℚ → GlyphBox → GlyphBox
  | [], _, r => r
  | b :: bs, maxx, r =>
    if maxx < da.X b.X + b.Min.X + b.Size.X ∧ b.X ≤ 1 then
      rightMostGo da bs (da.X b.X + b.Min.X + b.Size.X) b
    else
      rightMostGo da bs maxx r

/-- `rightMost` (src/plot/plot.go lines 192-202): the sentinel start
value is the glyph box `{X: 1}` with zero offset rectangle. -/
def rightMost (da : DrawArea) (boxes : List GlyphBox) : GlyphBox :=
  rightMostGo da boxes da.Max.X ⟨1, 0, ⟨0, 0⟩, ⟨0, 0⟩⟩

/-- The loop of `bottomMost` (src/plot/plot.go lines 255-265). -/
def bottomMostGo (da : DrawArea) : List GlyphBox → ℚ → GlyphBox → GlyphBox
  | [], _, l => l
  | b :: bs, miny, l =>
    if da.Y b.Y + b.Min.Y < miny ∧ 0 ≤ b.Y then
      bottomMostGo da bs (da.Y b.Y + b.Min.Y) b
    else
      bottomMostGo da bs miny l

/-- `bottomMost` (src/plot/plot.go lines 255-265). -/
def bottomMost (da : DrawArea) (boxes : List GlyphBox) : GlyphBox :=
  bottomMostGo da boxes da.Min.Y ⟨0, 0, ⟨0, 0⟩, ⟨0, 0⟩⟩

/-- The loop of `topMost` (src/plot/plot.go lines 242-252). -/
def topMostGo (da : DrawArea) : List GlyphBox → ℚ → GlyphBox → GlyphBox
  | [], _, t => t
  | b :: bs, maxy, t =>
    if maxy < da.Y b.Y + b.Min.Y + b.Size.Y ∧ b.Y ≤ 1 then
      topMostGo da bs (da.Y b.Y + b.Min.Y + b.Size.Y) b
    else
      topMostGo da bs maxy t

/-- `topMost` (src/plot/plot.go lines 242-252). -/
def topMost (da : DrawArea) (boxes : List GlyphBox) : GlyphBox :=
  topMostGo da boxes da.Max.Y ⟨1, 0, ⟨0, 0⟩, ⟨0, 0⟩⟩

/-- The arithmetic core of `padX` (src/plot/plot.go lines 176-188):
lines 176-188 of the source computed over an already selected
left-most box `l` and right-most box `r`.  Division in this rational
model sends `q / 0` to `0`; the Go code performs the same division on
float64, where a zero denominator yields ±Inf or NaN. -/
def padXof (l r : GlyphBox) (da : DrawArea) : DrawArea :=
  let minx := da.Min.X - l.Min.X
  let maxx := da.Max.X - (r.Min.X + r.Size.X)
  let lx := l.X
  let rx := r.X
  let n := (lx * maxx - rx * minx) / (lx - rx)
  let m := ((lx - 1) * maxx - rx * minx + minx) / (lx - rx)
  { Min := ⟨n, da.Min.Y⟩, Size := ⟨m - n, da.Size.Y⟩ }

/-- `padX` (src/plot/plot.go lines 169-189).  In the source the first
argument list is `p.GlyphBoxes(p)` (the plot's own boxes) and the
second is `horizontalAxis{p.X}.GlyphBoxes(p)` (the x-axis's boxes,
whose producer lives in the axis file, not under `src/`); `leftMost`
is applied to the plot boxes alone, then the axis boxes are appended
and `rightMost` is applied to the combined list, exactly as in the
source. -/
def padX (plotGlyphs axisGlyphs : List GlyphBox) (da : DrawArea) : DrawArea :=
  padXof (leftMost da plotGlyphs)
    (rightMost da (plotGlyphs ++ axisGlyphs)) da

/-- The arithmetic core of `padY` (src/plot/plot.go lines 226-238),
over an already selected bottom-most box `b` and top-most box `t`. -/
def padYof (b t : GlyphBox) (da : DrawArea) : DrawArea :=
  let miny := da.Min.Y - b.Min.Y
  let maxy := da.Max.Y - (t.Min.Y + t.Size.Y)
  let by' := b.Y
  let ty := t.Y
  let n := (by' * maxy - ty * miny) / (by' - ty)
  let m := ((by' - 1) * maxy - ty * miny + miny) / (by' - ty)
  { Min := ⟨da.Min.X, n⟩, Size := ⟨da.Size.X, m - n⟩ }

/-- `padY` (src/plot/plot.go lines 219-239): the vertical mirror of
`padX`; in the source `bottomMost` sees the plot's boxes alone
(`p.GlyphBoxes(p)`), then the y-axis's boxes (from the axis file, not
under `src/`) are appended and `topMost` sees the combined list. -/
def padY (plotGlyphs axisGlyphs : List GlyphBox) (da : DrawArea) : DrawArea :=
  padYof (bottomMost da plotGlyphs)
    (topMost da (plotGlyphs ++ axisGlyphs)) da

/-- C1: counterexample.  At a region `[0,100] × [0,50]` with a box
anchored at `X = 0` hanging 20 units left and a box anchored at
`X = 1` extending 30 units right, `lx = 0 ≠ 1 = rx`, yet the result's
`Min.X` is `20`, not the value `70` of the spec's `innerMin` formula
`((lx−1)·maxx − rx·minx + minx)/(lx−rx)`: the spec's `innerMin` and
`innerSize` formulas are swapped relative to the code. -/
theorem padX_spec_formula_counterexample :
    (leftMost ⟨⟨0, 0⟩, ⟨100, 50⟩⟩
        [⟨0, 0, ⟨-20, 0⟩, ⟨20, 0⟩⟩, ⟨1, 0, ⟨0, 0⟩, ⟨30, 0⟩⟩]).X ≠
      (rightMost ⟨⟨0, 0⟩, ⟨100, 50⟩⟩
        ([⟨0, 0, ⟨-20, 0⟩, ⟨20, 0⟩⟩, ⟨1, 0, ⟨0, 0⟩, ⟨30, 0⟩⟩] ++ [])).X ∧
    (padX [⟨0, 0, ⟨-20, 0⟩, ⟨20, 0⟩⟩, ⟨1, 0, ⟨0, 0⟩, ⟨30, 0⟩⟩] []
        ⟨⟨0, 0⟩, ⟨100, 50⟩⟩).Min.X ≠
      (((0 : ℚ) - 1) * 70 - 1 * 20 + 20) / (0 - 1) := by
  norm_num [padX, padXof, leftMost, leftMostGo, rightMost, rightMostGo,
    DrawArea.X, DrawArea.Max]

/-- C1 (amended): with the two closed forms exchanged the claim holds:
for every pair of glyph-box lists and region with `lx ≠ rx`, the
result of `padX` satisfies `Min.X = (lx·maxx − rx·minx)/(lx−rx)` and
`Size.X = ((lx−1)·maxx − rx·minx + minx)/(lx−rx) − Min.X`, and
symmetrically for `padY` when `by ≠ ty`. -/
theorem padX_padY_closed_form (plotGlyphs axisGlyphs : List GlyphBox)
    (da : DrawArea)
    (_hx : (leftMost da plotGlyphs).X ≠
      (rightMost da (plotGlyphs ++ axisGlyphs)).X)
    (_hy : (bottomMost da plotGlyphs).Y ≠
      (topMost da (plotGlyphs ++ axisGlyphs)).Y) :
    (let l := leftMost da plotGlyphs
     let r := rightMost da (plotGlyphs ++ axisGlyphs)
     let minx := da.Min.X - l.Min.X
     let maxx := da.Max.X - (r.Min.X + r.Size.X)
     let innerMin := (l.X * maxx - r.X * minx) / (l.X - r.X)
     let innerSize :=
       ((l.X - 1) * maxx - r.X * minx + minx) / (l.X - r.X) - innerMin
     (padX plotGlyphs axisGlyphs da).Min.X = innerMin ∧
       (padX plotGlyphs axisGlyphs da).Size.X = innerSize) ∧
    (let b := bottomMost da plotGlyphs
     let t := topMost da (plotGlyphs ++ axisGlyphs)
     let miny := da.Min.Y - b.Min.Y
     let maxy := da.Max.Y - (t.Min.Y + t.Size.Y)
     let innerMin := (b.Y * maxy - t.Y * miny) / (b.Y - t.Y)
     let innerSize :=
       ((b.Y - 1) * maxy - t.Y * miny + miny) / (b.Y - t.Y) - innerMin
     (padY plotGlyphs axisGlyphs da).Min.Y = innerMin ∧
       (padY plotGlyphs axisGlyphs da).Size.Y = innerSize) :=
  ⟨⟨rfl, rfl⟩, ⟨rfl, rfl⟩⟩

/-- C1 (amended), witness: the closed forms evaluated at a concrete
region and two boxes with `lx = 0 ≠ 1 = rx` and `by = 0 ≠ 1 = ty`. -/
theorem padX_padY_closed_form_witness :
    ((leftMost ⟨⟨0, 0⟩, ⟨200, 100⟩⟩
        [⟨0, 0, ⟨-10, -10⟩, ⟨10, 10⟩⟩, ⟨1, 1, ⟨0, 0⟩, ⟨15, 15⟩⟩]).X ≠
      (rightMost ⟨⟨0, 0⟩, ⟨200, 100⟩⟩
        ([⟨0, 0, ⟨-10, -10⟩, ⟨10, 10⟩⟩, ⟨1, 1, ⟨0, 0⟩, ⟨15, 15⟩⟩] ++ [])).X) ∧
    ((let l := leftMost ⟨⟨0, 0⟩, ⟨200, 100⟩⟩
        [⟨0, 0, ⟨-10, -10⟩, ⟨10, 10⟩⟩, ⟨1, 1, ⟨0, 0⟩, ⟨15, 15⟩⟩]
      let r := rightMost ⟨⟨0, 0⟩, ⟨200, 100⟩⟩
        ([⟨0, 0, ⟨-10, -10⟩, ⟨10, 10⟩⟩, ⟨1, 1, ⟨0, 0⟩, ⟨15, 15⟩⟩] ++ [])
      let minx := (⟨⟨0, 0⟩, ⟨200, 100⟩⟩ : DrawArea).Min.X - l.Min.X
      let maxx := (⟨⟨0, 0⟩, ⟨200, 100⟩⟩ : DrawArea).Max.X - (r.Min.X + r.Size.X)
      let innerMin := (l.X * maxx - r.X * minx) / (l.X - r.X)
      let innerSize :=
        ((l.X - 1) * maxx - r.X * minx + minx) / (l.X - r.X) - innerMin
      (padX [⟨0, 0, ⟨-10, -10⟩, ⟨10, 10⟩⟩, ⟨1, 1, ⟨0, 0⟩, ⟨15, 15⟩⟩] []
          ⟨⟨0, 0⟩, ⟨200, 100⟩⟩).Min.X = innerMin ∧
        (padX [⟨0, 0, ⟨-10, -10⟩, ⟨10, 10⟩⟩, ⟨1, 1, ⟨0, 0⟩, ⟨15, 15⟩⟩] []
          ⟨⟨0, 0⟩, ⟨200, 100⟩⟩).Size.X = innerSize) ∧
     (let b := bottomMost ⟨⟨0, 0⟩, ⟨200, 100⟩⟩
        [⟨0, 0, ⟨-10, -10⟩, ⟨10, 10⟩⟩, ⟨1, 1, ⟨0, 0⟩, ⟨15, 15⟩⟩]
      let t := topMost ⟨⟨0, 0⟩, ⟨200, 100⟩⟩
        ([⟨0, 0, ⟨-10, -10⟩, ⟨10, 10⟩⟩, ⟨1, 1, ⟨0, 0⟩, ⟨15, 15⟩⟩] ++ [])
      let miny := (⟨⟨0, 0⟩, ⟨200, 100⟩⟩ : DrawArea).Min.Y - b.Min.Y
      let maxy := (⟨⟨0, 0⟩, ⟨200, 100⟩⟩ : DrawArea).Max.Y - (t.Min.Y + t.Size.Y)
      let innerMin := (b.Y * maxy - t.Y * miny) / (b.Y - t.Y)
      let innerSize :=
        ((b.Y - 1) * maxy - t.Y * miny + miny) / (b.Y - t.Y) - innerMin
      (padY [⟨0, 0, ⟨-10, -10⟩, ⟨10, 10⟩⟩, ⟨1, 1, ⟨0, 0⟩, ⟨15, 15⟩⟩] []
          ⟨⟨0, 0⟩, ⟨200, 100⟩⟩).Min.Y = innerMin ∧
        (padY [⟨0, 0, ⟨-10, -10⟩, ⟨10, 10⟩⟩, ⟨1, 1, ⟨0, 0⟩, ⟨15, 15⟩⟩] []
          ⟨⟨0, 0⟩, ⟨200, 100⟩⟩).Size.Y = innerSize)) :=
  ⟨by norm_num [leftMost, leftMostGo, rightMost, rightMostGo,
      DrawArea.X, DrawArea.Max],
   padX_padY_closed_form _ _ _
     (by norm_num [leftMost, leftMostGo, rightMost, rightMostGo,
        DrawArea.X, DrawArea.Max])
     (by norm_num [bottomMost, bottomMostGo, topMost, topMostGo,
        DrawArea.Y, DrawArea.Max])⟩

/-- C2: for any outer region of width 200 and the two glyph boxes of
the claim (anchor `X=0`, offset `{Min.X=-10, Size.X=10}`; anchor
`X=1`, offset `{Min.X=0, Size.X=15}`), the horizontally padded
region's transform places the left box's absolute left edge at the
outer region's `Min.X` and the right box's absolute right edge at the
outer region's `Max().X`. -/
theorem padX_padding_exactness (da : DrawArea) (h : da.Size.X = 200) :
    (padX [⟨0, 0, ⟨-10, 0⟩, ⟨10, 0⟩⟩, ⟨1, 0, ⟨0, 0⟩, ⟨15, 0⟩⟩] [] da).X 0
        + (-10) = da.Min.X ∧
    (padX [⟨0, 0, ⟨-10, 0⟩, ⟨10, 0⟩⟩, ⟨1, 0, ⟨0, 0⟩, ⟨15, 0⟩⟩] [] da).X 1
        + 0 + 15 = da.Max.X := by
  obtain ⟨⟨mx, my⟩, ⟨sx, sy⟩⟩ := da
  dsimp only at h
  subst h
  norm_num [padX, padXof, leftMost, leftMostGo, rightMost, rightMostGo,
    DrawArea.X, DrawArea.Max]
  split_ifs <;>
    first
      | (exfalso; linarith)
      | (constructor <;> (dsimp only; ring))

/-- C2, witness: the exactness equalities at the concrete outer region
`[0,200] × [0,100]`. -/
theorem padX_padding_exactness_witness :
    ((⟨⟨0, 0⟩, ⟨200, 100⟩⟩ : DrawArea).Size.X = 200) ∧
    ((padX [⟨0, 0, ⟨-10, 0⟩, ⟨10, 0⟩⟩, ⟨1, 0, ⟨0, 0⟩, ⟨15, 0⟩⟩] []
        ⟨⟨0, 0⟩, ⟨200, 100⟩⟩).X 0 + (-10)
        = (⟨⟨0, 0⟩, ⟨200, 100⟩⟩ : DrawArea).Min.X ∧
      (padX [⟨0, 0, ⟨-10, 0⟩, ⟨10, 0⟩⟩, ⟨1, 0, ⟨0, 0⟩, ⟨15, 0⟩⟩] []
        ⟨⟨0, 0⟩, ⟨200, 100⟩⟩).X 1 + 0 + 15
        = (⟨⟨0, 0⟩, ⟨200, 100⟩⟩ : DrawArea).Max.X) :=
  ⟨rfl, padX_padding_exactness ⟨⟨0, 0⟩, ⟨200, 100⟩⟩ rfl⟩

/-- C3: the failing input evaluated.  With the single box anchored at
`X = 1/2` protruding past both edges of the region `[0,100] × [0,100]`,
the selected left-most and right-most boxes coincide (`lx = rx = 1/2`),
yet `padX` is not skipped: it still computes the division and returns
a region different from its input (in Go the zero denominator makes
`Min.X = -Inf` and `Size.X = +Inf`); symmetrically for `padY`. -/
theorem padX_padY_singular_evaluated :
    (leftMost ⟨⟨0, 0⟩, ⟨100, 100⟩⟩ [⟨1/2, 0, ⟨-100, 0⟩, ⟨200, 0⟩⟩]).X =
      (rightMost ⟨⟨0, 0⟩, ⟨100, 100⟩⟩
        ([⟨1/2, 0, ⟨-100, 0⟩, ⟨200, 0⟩⟩] ++ [])).X ∧
    padX [⟨1/2, 0, ⟨-100, 0⟩, ⟨200, 0⟩⟩] [] ⟨⟨0, 0⟩, ⟨100, 100⟩⟩ ≠
      ⟨⟨0, 0⟩, ⟨100, 100⟩⟩ ∧
    (bottomMost ⟨⟨0, 0⟩, ⟨100, 100⟩⟩ [⟨0, 1/2, ⟨0, -100⟩, ⟨0, 200⟩⟩]).Y =
      (topMost ⟨⟨0, 0⟩, ⟨100, 100⟩⟩
        ([⟨0, 1/2, ⟨0, -100⟩, ⟨0, 200⟩⟩] ++ [])).Y ∧
    padY [⟨0, 1/2, ⟨0, -100⟩, ⟨0, 200⟩⟩] [] ⟨⟨0, 0⟩, ⟨100, 100⟩⟩ ≠
      ⟨⟨0, 0⟩, ⟨100, 100⟩⟩ := by
  norm_num [padX, padXof, padY, padYof, leftMost, leftMostGo, rightMost, rightMostGo,
    bottomMost, bottomMostGo, topMost, topMostGo,
    DrawArea.X, DrawArea.Y, DrawArea.Max,
    DrawArea.mk.injEq, Point.mk.injEq]

/-- If no box in the list has its absolute left edge strictly left of
the running minimum, the `leftMost` loop keeps its current best. -/
theorem leftMostGo_of_none (da : DrawArea) :
    ∀ (bs : List GlyphBox) (minx : ℚ) (l : GlyphBox),
      (∀ b ∈ bs, ¬(da.X b.X + b.Min.X < minx ∧ 0 ≤ b.X)) →
      leftMostGo da bs minx l = l
  | [], _, _, _ => rfl
  | b :: bs, minx, l, h => by
    rw [leftMostGo, if_neg (h b (List.mem_cons_self _ _))]
    exact leftMostGo_of_none da bs minx l
      fun c hc => h c (List.mem_cons_of_mem _ hc)

/-- If no box in the list has its absolute right edge strictly right
of the running maximum, the `rightMost` loop keeps its current best. -/
theorem rightMostGo_of_none (da : DrawArea) :
    ∀ (bs : List GlyphBox) (maxx : ℚ) (r : GlyphBox),
      (∀ b ∈ bs, ¬(maxx < da.X b.X + b.Min.X + b.Size.X ∧ b.X ≤ 1)) →
      rightMostGo da bs maxx r = r
  | [], _, _, _ => rfl
  | b :: bs, maxx, r, h => by
    rw [rightMostGo, if_neg (h b (List.mem_cons_self _ _))]
    exact rightMostGo_of_none da bs maxx r
      fun c hc => h c (List.mem_cons_of_mem _ hc)

/-- C4: if every glyph box (of the plot and of the axis) keeps its
absolute horizontal extent inside the region — so both sentinel boxes
are used — `padX` returns its input region unchanged: same `Min` and
same `Size` on both axes. -/
theorem padX_no_glyph_identity (plotGlyphs axisGlyphs : List GlyphBox)
    (da : DrawArea)
    (h : ∀ b ∈ plotGlyphs ++ axisGlyphs,
      da.Min.X ≤ da.X b.X + b.Min.X ∧
        da.X b.X + b.Min.X + b.Size.X ≤ da.Max.X) :
    padX plotGlyphs axisGlyphs da = da := by
  have hl : leftMost da plotGlyphs = ⟨0, 0, ⟨0, 0⟩, ⟨0, 0⟩⟩ :=
    leftMostGo_of_none da plotGlyphs da.Min.X _ fun b hb hc =>
      absurd hc.1 (not_lt.mpr (h b (List.mem_append_left _ hb)).1)
  have hr : rightMost da (plotGlyphs ++ axisGlyphs) = ⟨1, 0, ⟨0, 0⟩, ⟨0, 0⟩⟩ :=
    rightMostGo_of_none da _ da.Max.X _ fun b hb hc =>
      absurd hc.1 (not_lt.mpr (h b hb).2)
  unfold padX padXof
  rw [hl, hr]
  obtain ⟨⟨mx, my⟩, ⟨sx, sy⟩⟩ := da
  simp only [DrawArea.Max, DrawArea.mk.injEq, Point.mk.injEq]
  norm_num
  ring

/-- C4, witness: a single interior box inside the region
`[0,100] × [0,100]` leaves the region unchanged. -/
theorem padX_no_glyph_identity_witness :
    (∀ b ∈ ([⟨1/2, 1/2, ⟨-5, -5⟩, ⟨10, 10⟩⟩] : List GlyphBox) ++ [],
      (⟨⟨0, 0⟩, ⟨100, 100⟩⟩ : DrawArea).Min.X ≤
          DrawArea.X ⟨⟨0, 0⟩, ⟨100, 100⟩⟩ b.X + b.Min.X ∧
        DrawArea.X ⟨⟨0, 0⟩, ⟨100, 100⟩⟩ b.X + b.Min.X + b.Size.X ≤
          (⟨⟨0, 0⟩, ⟨100, 100⟩⟩ : DrawArea).Max.X) ∧
    padX [⟨1/2, 1/2, ⟨-5, -5⟩, ⟨10, 10⟩⟩] [] ⟨⟨0, 0⟩, ⟨100, 100⟩⟩ =
      ⟨⟨0, 0⟩, ⟨100, 100⟩⟩ :=
  ⟨by norm_num [DrawArea.X, DrawArea.Max],
   padX_no_glyph_identity _ _ _ (by norm_num [DrawArea.X, DrawArea.Max])⟩

/-- Modelled from the spec: the left-most selection as the claim words
it — among the boxes of the combined list (plot boxes together with
the axis's boxes) whose anchor fraction satisfies `X ≥ 0`, the box
whose absolute left edge `region.X(Anchor.X) + OffsetRect.Min.X` is
the smallest; the sentinel at anchor `X = 0` with zero offset is used
only when no candidate with `X ≥ 0` exists. -/
def leftMostClaim (da : DrawArea) (boxes : List GlyphBox) : GlyphBox :=
  (boxes.foldl (fun best b =>
    if 0 ≤ b.X then
      match best with
      | none => some b
      | some c =>
        if da.X b.X + b.Min.X < da.X c.X + c.Min.X then some b else some c
    else best) none).getD ⟨0, 0, ⟨0, 0⟩, ⟨0, 0⟩⟩

/-- C5: counterexample.  Two concrete inputs on the region
`[0,100] × [0,100]`.  First, with no plot boxes and one x-axis box
anchored at `X = 0` hanging 10 units left, the claim's selection picks
the axis box while `padX`'s actual `leftMost` call, which never sees
the axis boxes, returns the sentinel — and the resulting regions
differ.  Second, with a single plot box anchored at `X = 1/2` that
does not protrude, a candidate with `X ≥ 0` exists, yet the code
still returns the sentinel. -/
theorem leftMost_selection_counterexample :
    leftMost ⟨⟨0, 0⟩, ⟨100, 100⟩⟩ [] ≠
      leftMostClaim ⟨⟨0, 0⟩, ⟨100, 100⟩⟩
        ([] ++ [⟨0, 0, ⟨-10, 0⟩, ⟨10, 0⟩⟩]) ∧
    padX [] [⟨0, 0, ⟨-10, 0⟩, ⟨10, 0⟩⟩] ⟨⟨0, 0⟩, ⟨100, 100⟩⟩ ≠
      padXof
        (leftMostClaim ⟨⟨0, 0⟩, ⟨100, 100⟩⟩
          ([] ++ [⟨0, 0, ⟨-10, 0⟩, ⟨10, 0⟩⟩]))
        (rightMost ⟨⟨0, 0⟩, ⟨100, 100⟩⟩ ([] ++ [⟨0, 0, ⟨-10, 0⟩, ⟨10, 0⟩⟩]))
        ⟨⟨0, 0⟩, ⟨100, 100⟩⟩ ∧
    leftMost ⟨⟨0, 0⟩, ⟨100, 100⟩⟩ [⟨1/2, 0, ⟨0, 0⟩, ⟨1, 1⟩⟩] ≠
      leftMostClaim ⟨⟨0, 0⟩, ⟨100, 100⟩⟩
        ([⟨1/2, 0, ⟨0, 0⟩, ⟨1, 1⟩⟩] ++ []) := by
  norm_num [padX, padXof, leftMost, leftMostGo, leftMostClaim,
    rightMost, rightMostGo, DrawArea.X, DrawArea.Max, List.foldl,
    Option.getD, DrawArea.mk.injEq, Point.mk.injEq, GlyphBox.mk.injEq]

/-- Running the `leftMost` loop either keeps the incoming best box, or
returns a list element with anchor `X ≥ 0` whose absolute left edge is
strictly below the incoming running minimum. -/
theorem leftMostGo_cases (da : DrawArea) :
    ∀ (bs : List GlyphBox) (minx : ℚ) (l : GlyphBox),
      leftMostGo da bs minx l = l ∨
        (leftMostGo da bs minx l ∈ bs ∧
          0 ≤ (leftMostGo da bs minx l).X ∧
          da.X (leftMostGo da bs minx l).X +
            (leftMostGo da bs minx l).Min.X < minx)
  | [], _, _ => Or.inl rfl
  | b :: bs, minx, l => by
    rw [leftMostGo]
    split_ifs with hc
    · rcases leftMostGo_cases da bs (da.X b.X + b.Min.X) b with h | ⟨hm, hx, hlt⟩
      · right
        rw [h]
        exact ⟨List.mem_cons_self _ _, hc.2, hc.1⟩
      · right
        exact ⟨List.mem_cons_of_mem _ hm, hx, hlt.trans hc.1⟩
    · rcases leftMostGo_cases da bs minx l with h | ⟨hm, hx, hlt⟩
      · exact Or.inl h
      · right
        exact ⟨List.mem_cons_of_mem _ hm, hx, hlt⟩

/-- The `leftMost` loop's result's absolute left edge is at most that
of any list element with anchor `X ≥ 0` lying strictly below the
incoming running minimum. -/
theorem leftMostGo_min (da : DrawArea) :
    ∀ (bs : List GlyphBox) (minx : ℚ) (l : GlyphBox) (b : GlyphBox),
      b ∈ bs → 0 ≤ b.X → da.X b.X + b.Min.X < minx →
      da.X (leftMostGo da bs minx l).X + (leftMostGo da bs minx l).Min.X ≤
        da.X b.X + b.Min.X
  | [], _, _, b, hb, _, _ => absurd hb (List.not_mem_nil b)
  | b₀ :: bs, minx, l, b, hb, hx, hlt => by
    rw [leftMostGo]
    split_ifs with hc
    · rcases List.mem_cons.mp hb with rfl | hb'
      · rcases leftMostGo_cases da bs (da.X b.X + b.Min.X) b with h | ⟨_, _, hlt'⟩
        · rw [h]
        · exact le_of_lt hlt'
      · by_cases hlt2 : da.X b.X + b.Min.X < da.X b₀.X + b₀.Min.X
        · exact leftMostGo_min da bs _ b₀ b hb' hx hlt2
        · rcases leftMostGo_cases da bs (da.X b₀.X + b₀.Min.X) b₀ with h | ⟨_, _, hlt'⟩
          · rw [h]
            exact not_lt.mp hlt2
          · exact le_trans (le_of_lt hlt') (not_lt.mp hlt2)
    · rcases List.mem_cons.mp hb with rfl | hb'
      · exact absurd ⟨hlt, hx⟩ hc
      · exact leftMostGo_min da bs minx l b hb' hx hlt

/-- C5 (amended): in `padX`, `leftMost` is applied to the plot's own
glyph boxes only — the x-axis's boxes are appended afterwards and seen
only by `rightMost`; and among the plot boxes with anchor `X ≥ 0`
whose absolute left edge lies strictly left of `region.Min.X`, the
selected box is one of them with the smallest such edge, the sentinel
at anchor `X = 0` being used exactly when no box protrudes this way. -/
theorem leftMost_selection_amended (da : DrawArea)
    (plotGlyphs : List GlyphBox) :
    (∀ axisGlyphs : List GlyphBox, padX plotGlyphs axisGlyphs da =
        padXof (leftMost da plotGlyphs)
          (rightMost da (plotGlyphs ++ axisGlyphs)) da) ∧
    ((∀ b ∈ plotGlyphs, ¬(0 ≤ b.X ∧ da.X b.X + b.Min.X < da.Min.X)) →
        leftMost da plotGlyphs = ⟨0, 0, ⟨0, 0⟩, ⟨0, 0⟩⟩) ∧
    (∀ b ∈ plotGlyphs, 0 ≤ b.X → da.X b.X + b.Min.X < da.Min.X →
        (leftMost da plotGlyphs ∈ plotGlyphs ∧
          0 ≤ (leftMost da plotGlyphs).X ∧
          da.X (leftMost da plotGlyphs).X + (leftMost da plotGlyphs).Min.X <
            da.Min.X) ∧
        da.X (leftMost da plotGlyphs).X + (leftMost da plotGlyphs).Min.X ≤
          da.X b.X + b.Min.X) := by
  refine ⟨fun _ => rfl, ?_, ?_⟩
  · intro h
    exact leftMostGo_of_none da plotGlyphs da.Min.X _ fun b hb hc =>
      h b hb ⟨hc.2, hc.1⟩
  · intro b hb hx hlt
    have hmin := leftMostGo_min da plotGlyphs da.Min.X ⟨0, 0, ⟨0, 0⟩, ⟨0, 0⟩⟩
      b hb hx hlt
    refine ⟨?_, hmin⟩
    rcases leftMostGo_cases da plotGlyphs da.Min.X ⟨0, 0, ⟨0, 0⟩, ⟨0, 0⟩⟩ with
      h | ⟨hm, hx', hlt'⟩
    · exfalso
      rw [h] at hmin
      simp only [DrawArea.X, zero_mul, zero_add, add_zero] at hmin
      exact absurd (lt_of_le_of_lt hmin hlt) (lt_irrefl _)
    · exact ⟨hm, hx', hlt'⟩

/-- C5 (amended), witness: the selection characterization evaluated on
the region `[0,100] × [0,100]` with one protruding plot box. -/
theorem leftMost_selection_amended_witness :
    ((⟨0, 0, ⟨-10, 0⟩, ⟨10, 0⟩⟩ : GlyphBox) ∈
        ([⟨0, 0, ⟨-10, 0⟩, ⟨10, 0⟩⟩] : List GlyphBox) ∧
      (0 : ℚ) ≤ (⟨0, 0, ⟨-10, 0⟩, ⟨10, 0⟩⟩ : GlyphBox).X ∧
      DrawArea.X ⟨⟨0, 0⟩, ⟨100, 100⟩⟩ (⟨0, 0, ⟨-10, 0⟩, ⟨10, 0⟩⟩ : GlyphBox).X +
          (⟨0, 0, ⟨-10, 0⟩, ⟨10, 0⟩⟩ : GlyphBox).Min.X <
        (⟨⟨0, 0⟩, ⟨100, 100⟩⟩ : DrawArea).Min.X) ∧
    ((leftMost ⟨⟨0, 0⟩, ⟨100, 100⟩⟩ [⟨0, 0, ⟨-10, 0⟩, ⟨10, 0⟩⟩] ∈
        ([⟨0, 0, ⟨-10, 0⟩, ⟨10, 0⟩⟩] : List GlyphBox) ∧
      0 ≤ (leftMost ⟨⟨0, 0⟩, ⟨100, 100⟩⟩ [⟨0, 0, ⟨-10, 0⟩, ⟨10, 0⟩⟩]).X ∧
      DrawArea.X ⟨⟨0, 0⟩, ⟨100, 100⟩⟩
          (leftMost ⟨⟨0, 0⟩, ⟨100, 100⟩⟩ [⟨0, 0, ⟨-10, 0⟩, ⟨10, 0⟩⟩]).X +
          (leftMost ⟨⟨0, 0⟩, ⟨100, 100⟩⟩ [⟨0, 0, ⟨-10, 0⟩, ⟨10, 0⟩⟩]).Min.X <
        (⟨⟨0, 0⟩, ⟨100, 100⟩⟩ : DrawArea).Min.X) ∧
      DrawArea.X ⟨⟨0, 0⟩, ⟨100, 100⟩⟩
          (leftMost ⟨⟨0, 0⟩, ⟨100, 100⟩⟩ [⟨0, 0, ⟨-10, 0⟩, ⟨10, 0⟩⟩]).X +
          (leftMost ⟨⟨0, 0⟩, ⟨100, 100⟩⟩ [⟨0, 0, ⟨-10, 0⟩, ⟨10, 0⟩⟩]).Min.X ≤
        DrawArea.X ⟨⟨0, 0⟩, ⟨100, 100⟩⟩
            (⟨0, 0, ⟨-10, 0⟩, ⟨10, 0⟩⟩ : GlyphBox).X +
          (⟨0, 0, ⟨-10, 0⟩, ⟨10, 0⟩⟩ : GlyphBox).Min.X) :=
  ⟨⟨List.mem_singleton.mpr rfl, by norm_num, by norm_num [DrawArea.X]⟩,
   (leftMost_selection_amended ⟨⟨0, 0⟩, ⟨100, 100⟩⟩
       [⟨0, 0, ⟨-10, 0⟩, ⟨10, 0⟩⟩]).2.2 _
     (List.mem_singleton.mpr rfl) (by norm_num) (by norm_num [DrawArea.X])⟩

/-- A Go float64 as far as the axis-range arithmetic of `Add` observes
it: either NaN or a (finite) numeric value, the latter modelled as a
rational.  Infinities behave like ordinary extreme values for
`math.Min`/`math.Max` and play no role in the claims, so they are not
distinguished. -/
inductive GoFloat where
  | nan : GoFloat
  | val : ℚ → GoFloat
deriving DecidableEq, Repr

/-- Go's `math.Min`: NaN if either argument is NaN, else the smaller
value. -/
def goMin : GoFloat → GoFloat → GoFloat
  | .val a, .val b => .val (min a b)
  | _, _ => .nan

/-- Go's `math.Max`: NaN if either argument is NaN, else the larger
value. -/
def goMax : GoFloat → GoFloat → GoFloat
  | .val a, .val b => .val (max a b)
  | _, _ => .nan

/-- Go's `<=` on float64: false whenever either side is NaN. -/
def goLe : GoFloat → GoFloat → Bool
  | .val a, .val b => decide (a ≤ b)
  | _, _ => false

theorem goMin_nan_left (x : GoFloat) : goMin .nan x = .nan := by
  cases x <;> rfl

theorem goMin_nan_right (x : GoFloat) : goMin x .nan = .nan := by
  cases x <;> rfl

theorem goMax_nan_left (x : GoFloat) : goMax .nan x = .nan := by
  cases x <;> rfl

theorem goMax_nan_right (x : GoFloat) : goMax x .nan = .nan := by
  cases x <;> rfl

theorem goLe_nan_left (x : GoFloat) : goLe .nan x = false := by
  cases x <;> rfl

theorem goLe_refl (a : GoFloat) (ha : a ≠ .nan) : goLe a a = true := by
  cases a with
  | nan => exact absurd rfl ha
  | val q => simp [goLe]

theorem goLe_trans {a b c : GoFloat} (hab : goLe a b = true)
    (hbc : goLe b c = true) : goLe a c = true := by
  cases a <;> cases b <;> cases c <;> simp_all [goLe]
  exact le_trans hab hbc

theorem goMin_ne_nan {a b : GoFloat} (ha : a ≠ .nan) (hb : b ≠ .nan) :
    goMin a b ≠ .nan := by
  cases a <;> cases b <;> simp_all [goMin]

theorem goMax_ne_nan {a b : GoFloat} (ha : a ≠ .nan) (hb : b ≠ .nan) :
    goMax a b ≠ .nan := by
  cases a <;> cases b <;> simp_all [goMax]

theorem goMin_le_left {a b : GoFloat} (ha : a ≠ .nan) (hb : b ≠ .nan) :
    goLe (goMin a b) a = true := by
  cases a <;> cases b <;> simp_all [goMin, goLe]

theorem goMin_le_right {a b : GoFloat} (ha : a ≠ .nan) (hb : b ≠ .nan) :
    goLe (goMin a b) b = true := by
  cases a <;> cases b <;> simp_all [goMin, goLe]

theorem left_le_goMax {a b : GoFloat} (ha : a ≠ .nan) (hb : b ≠ .nan) :
    goLe a (goMax a b) = true := by
  cases a <;> cases b <;> simp_all [goMax, goLe]

theorem right_le_goMax {a b : GoFloat} (ha : a ≠ .nan) (hb : b ≠ .nan) :
    goLe b (goMax a b) = true := by
  cases a <;> cases b <;> simp_all [goMax, goLe]

theorem foldl_goMin_ne_nan :
    ∀ (l : List GoFloat) (a : GoFloat), a ≠ .nan → (∀ x ∈ l, x ≠ .nan) →
      l.foldl goMin a ≠ .nan
  | [], _, ha, _ => ha
  | b :: l, a, ha, hl => by
    exact foldl_goMin_ne_nan l (goMin a b)
      (goMin_ne_nan ha (hl b (List.mem_cons_self _ _)))
      fun x hx => hl x (List.mem_cons_of_mem _ hx)

theorem foldl_goMax_ne_nan :
    ∀ (l : List GoFloat) (a : GoFloat), a ≠ .nan → (∀ x ∈ l, x ≠ .nan) →
      l.foldl goMax a ≠ .nan
  | [], _, ha, _ => ha
  | b :: l, a, ha, hl => by
    exact foldl_goMax_ne_nan l (goMax a b)
      (goMax_ne_nan ha (hl b (List.mem_cons_self _ _)))
      fun x hx => hl x (List.mem_cons_of_mem _ hx)

theorem foldl_goMin_le_init :
    ∀ (l : List GoFloat) (a : GoFloat), a ≠ .nan → (∀ x ∈ l, x ≠ .nan) →
      goLe (l.foldl goMin a) a = true
  | [], a, ha, _ => goLe_refl a ha
  | b :: l, a, ha, hl => by
    have hb := hl b (List.mem_cons_self _ _)
    have htl : ∀ x ∈ l, x ≠ GoFloat.nan :=
      fun x hx => hl x (List.mem_cons_of_mem _ hx)
    exact goLe_trans
      (foldl_goMin_le_init l (goMin a b) (goMin_ne_nan ha hb) htl)
      (goMin_le_left ha hb)

theorem init_le_foldl_goMax :
    ∀ (l : List GoFloat) (a : GoFloat), a ≠ .nan → (∀ x ∈ l, x ≠ .nan) →
      goLe a (l.foldl goMax a) = true
  | [], a, ha, _ => goLe_refl a ha
  | b :: l, a, ha, hl => by
    have hb := hl b (List.mem_cons_self _ _)
    have htl : ∀ x ∈ l, x ≠ GoFloat.nan :=
      fun x hx => hl x (List.mem_cons_of_mem _ hx)
    exact goLe_trans (left_le_goMax ha hb)
      (init_le_foldl_goMax l (goMax a b) (goMax_ne_nan ha hb) htl)

theorem foldl_goMin_le_mem :
    ∀ (l : List GoFloat) (a : GoFloat) (x : GoFloat), a ≠ .nan →
      (∀ y ∈ l, y ≠ .nan) → x ∈ l → goLe (l.foldl goMin a) x = true
  | [], _, x, _, _, hx => absurd hx (List.not_mem_nil x)
  | b :: l, a, x, ha, hl, hx => by
    have hb := hl b (List.mem_cons_self _ _)
    have htl : ∀ y ∈ l, y ≠ GoFloat.nan :=
      fun y hy => hl y (List.mem_cons_of_mem _ hy)
    rcases List.mem_cons.mp hx with rfl | hx'
    · exact goLe_trans
        (foldl_goMin_le_init l (goMin a x) (goMin_ne_nan ha hb) htl)
        (goMin_le_right ha hb)
    · exact foldl_goMin_le_mem l (goMin a b) x (goMin_ne_nan ha hb) htl hx'

theorem mem_le_foldl_goMax :
    ∀ (l : List GoFloat) (a : GoFloat) (x : GoFloat), a ≠ .nan →
      (∀ y ∈ l, y ≠ .nan) → x ∈ l → goLe x (l.foldl goMax a) = true
  | [], _, x, _, _, hx => absurd hx (List.not_mem_nil x)
  | b :: l, a, x, ha, hl, hx => by
    have hb := hl b (List.mem_cons_self _ _)
    have htl : ∀ y ∈ l, y ≠ GoFloat.nan :=
      fun y hy => hl y (List.mem_cons_of_mem _ hy)
    rcases List.mem_cons.mp hx with rfl | hx'
    · exact goLe_trans (right_le_goMax ha hb)
        (init_le_foldl_goMax l (goMax a x) (goMax_ne_nan ha hb) htl)
    · exact mem_le_foldl_goMax l (goMax a b) x (goMax_ne_nan ha hb) htl hx'

theorem foldl_goMin_of_nan :
    ∀ (l : List GoFloat) (a : GoFloat), (.nan ∈ l ∨ a = .nan) →
      l.foldl goMin a = .nan
  | [], _, h => h.resolve_left (List.not_mem_nil _)
  | b :: l, a, h => by
    rcases h with hm | rfl
    · rcases List.mem_cons.mp hm with hb | hl
      · exact foldl_goMin_of_nan l (goMin a b)
          (Or.inr (hb ▸ goMin_nan_right a))
      · exact foldl_goMin_of_nan l (goMin a b) (Or.inl hl)
    · exact foldl_goMin_of_nan l (goMin .nan b) (Or.inr (goMin_nan_left b))

theorem foldl_goMax_of_nan :
    ∀ (l : List GoFloat) (a : GoFloat), (.nan ∈ l ∨ a = .nan) →
      l.foldl goMax a = .nan
  | [], _, h => h.resolve_left (List.not_mem_nil _)
  | b :: l, a, h => by
    rcases h with hm | rfl
    · rcases List.mem_cons.mp hm with hb | hl
      · exact foldl_goMax_of_nan l (goMax a b)
          (Or.inr (hb ▸ goMax_nan_right a))
      · exact foldl_goMax_of_nan l (goMax a b) (Or.inl hl)
    · exact foldl_goMax_of_nan l (goMax .nan b) (Or.inr (goMax_nan_left b))

/-- The result of a `DataRange()` call (src/plot/plot.go lines 71-75):
`(xmin, xmax, ymin, ymax)`. -/
structure DataRange where
  xmin : GoFloat
  xmax : GoFloat
  ymin : GoFloat
  ymax : GoFloat
deriving DecidableEq, Repr

/-- An axis as `Add` observes it (the `Min`/`Max` fields of `Axis`;
the axis type itself lives in the axis file, not under `src/`). -/
structure Axis where
  Min : GoFloat
  Max : GoFloat
deriving DecidableEq, Repr

/-- A registered plotter, by its two optional capabilities: a Go value
implements `GlyphBoxer` iff `glyphBoxes` is `some` (the boxes its
`GlyphBoxes` method returns) and implements `DataRanger` iff
`dataRange` is `some` (what its `DataRange` method returns). -/
structure Plotter where
  glyphBoxes : Option (List GlyphBox)
  dataRange : Option DataRange
deriving DecidableEq, Repr

/-- The `Plot` fields the claims depend on (src/plot/plot.go lines
36-59): the two axes and the ordered plotter list. -/
structure Plot where
  X : Axis
  Y : Axis
  plotters : List Plotter
deriving DecidableEq, Repr

/-- One `DataRanger` update of the loop body of `Add`
(src/plot/plot.go lines 117-121): widen both axes by `math.Min` /
`math.Max` against the reported range. -/
def widen (q : Plot) (r : DataRange) : Plot :=
  { q with
    X := ⟨goMin q.X.Min r.xmin, goMax q.X.Max r.xmax⟩,
    Y := ⟨goMin q.Y.Min r.ymin, goMax q.Y.Max r.ymax⟩ }

/-- The loop of `Add` (src/plot/plot.go lines 115-123): plotters that
do not implement `DataRanger` are skipped. -/
def applyRanges : Plot → List Plotter → Plot
  | q, [] => q
  | q, d :: ds =>
    applyRanges
      (match d.dataRange with
        | some r => widen q r
        | none => q) ds

/-- `Add` (src/plot/plot.go lines 114-126): widen the axes over every
`DataRanger` among the arguments, then append all arguments to the
plotter list. -/
def Plot.Add (p : Plot) (ps : List Plotter) : Plot :=
  let q := applyRanges p ps
  { q with plotters := q.plotters ++ ps }

/-- `GlyphBoxes` (src/plot/plot.go lines 299-306): concatenate, over
the plotter list in order, the boxes of every plotter implementing
`GlyphBoxer`.  Only `p.plotters` is consulted; axis boxes never enter
here. -/
def Plot.GlyphBoxes (p : Plot) : List GlyphBox :=
  p.plotters.foldl
    (fun boxes d =>
      match d.glyphBoxes with
      | some gbs => boxes ++ gbs
      | none => boxes) []

/-- The ranges reported by the `DataRanger`s among a plotter list, in
order. -/
def rangesOf (ps : List Plotter) : List DataRange :=
  ps.filterMap Plotter.dataRange

/-- No axis bound of the plot is NaN. -/
def realAxes (p : Plot) : Prop :=
  p.X.Min ≠ .nan ∧ p.X.Max ≠ .nan ∧ p.Y.Min ≠ .nan ∧ p.Y.Max ≠ .nan

instance (p : Plot) : Decidable (realAxes p) :=
  inferInstanceAs (Decidable (p.X.Min ≠ .nan ∧ p.X.Max ≠ .nan ∧
    p.Y.Min ≠ .nan ∧ p.Y.Max ≠ .nan))

/-- No component of the reported range is NaN. -/
def realRange (r : DataRange) : Prop :=
  r.xmin ≠ .nan ∧ r.xmax ≠ .nan ∧ r.ymin ≠ .nan ∧ r.ymax ≠ .nan

instance (r : DataRange) : Decidable (realRange r) :=
  inferInstanceAs (Decidable (r.xmin ≠ .nan ∧ r.xmax ≠ .nan ∧
    r.ymin ≠ .nan ∧ r.ymax ≠ .nan))

/-- One `Add` step never narrows and covers what it saw: the relation
holding between the plot states before and after one `Add` call. -/
def stepRel (a b : Plot) : Prop :=
  goLe b.X.Min a.X.Min = true ∧ goLe a.X.Max b.X.Max = true ∧
    goLe b.Y.Min a.Y.Min = true ∧ goLe a.Y.Max b.Y.Max = true

instance (a b : Plot) : Decidable (stepRel a b) :=
  inferInstanceAs (Decidable (goLe b.X.Min a.X.Min = true ∧
    goLe a.X.Max b.X.Max = true ∧ goLe b.Y.Min a.Y.Min = true ∧
    goLe a.Y.Max b.Y.Max = true))

theorem applyRanges_plotters :
    ∀ (ps : List Plotter) (q : Plot),
      (applyRanges q ps).plotters = q.plotters
  | [], _ => rfl
  | d :: ds, q => by
    rw [applyRanges]
    rcases hd : d.dataRange with _ | r <;>
      simp only [hd] <;> rw [applyRanges_plotters ds]
    rfl

theorem applyRanges_bounds :
    ∀ (ps : List Plotter) (q : Plot),
      (applyRanges q ps).X.Min =
          ((rangesOf ps).map DataRange.xmin).foldl goMin q.X.Min ∧
        (applyRanges q ps).X.Max =
          ((rangesOf ps).map DataRange.xmax).foldl goMax q.X.Max ∧
        (applyRanges q ps).Y.Min =
          ((rangesOf ps).map DataRange.ymin).foldl goMin q.Y.Min ∧
        (applyRanges q ps).Y.Max =
          ((rangesOf ps).map DataRange.ymax).foldl goMax q.Y.Max
  | [], _ => ⟨rfl, rfl, rfl, rfl⟩
  | d :: ds, q => by
    rw [applyRanges]
    rcases hd : d.dataRange with _ | r <;>
      simp only [rangesOf, List.filterMap_cons, hd] <;>
      exact applyRanges_bounds ds _

theorem Add_plotters (p : Plot) (ps : List Plotter) :
    (p.Add ps).plotters = p.plotters ++ ps := by
  show (applyRanges p ps).plotters ++ ps = p.plotters ++ ps
  rw [applyRanges_plotters]

theorem Add_bounds (p : Plot) (ps : List Plotter) :
    (p.Add ps).X.Min =
        ((rangesOf ps).map DataRange.xmin).foldl goMin p.X.Min ∧
      (p.Add ps).X.Max =
        ((rangesOf ps).map DataRange.xmax).foldl goMax p.X.Max ∧
      (p.Add ps).Y.Min =
        ((rangesOf ps).map DataRange.ymin).foldl goMin p.Y.Min ∧
      (p.Add ps).Y.Max =
        ((rangesOf ps).map DataRange.ymax).foldl goMax p.Y.Max :=
  applyRanges_bounds ps p

theorem foldl_Add_bounds :
    ∀ (pss : List (List Plotter)) (p : Plot),
      (pss.foldl Plot.Add p).X.Min =
          ((rangesOf pss.flatten).map DataRange.xmin).foldl goMin p.X.Min ∧
        (pss.foldl Plot.Add p).X.Max =
          ((rangesOf pss.flatten).map DataRange.xmax).foldl goMax p.X.Max ∧
        (pss.foldl Plot.Add p).Y.Min =
          ((rangesOf pss.flatten).map DataRange.ymin).foldl goMin p.Y.Min ∧
        (pss.foldl Plot.Add p).Y.Max =
          ((rangesOf pss.flatten).map DataRange.ymax).foldl goMax p.Y.Max
  | [], _ => ⟨rfl, rfl, rfl, rfl⟩
  | ps :: pss, p => by
    obtain ⟨h1, h2, h3, h4⟩ := foldl_Add_bounds pss (p.Add ps)
    obtain ⟨g1, g2, g3, g4⟩ := Add_bounds p ps
    simp only [List.foldl_cons, List.flatten_cons, rangesOf,
      List.filterMap_append, List.map_append, List.foldl_append]
    rw [h1, h2, h3, h4, g1, g2, g3, g4]
    simp [rangesOf]

theorem foldl_Add_plotters :
    ∀ (pss : List (List Plotter)) (p : Plot),
      (pss.foldl Plot.Add p).plotters = p.plotters ++ pss.flatten
  | [], p => by simp
  | ps :: pss, p => by
    simp only [List.foldl_cons, List.flatten_cons]
    rw [foldl_Add_plotters pss (p.Add ps), Add_plotters, List.append_assoc]

theorem realAxes_Add (p : Plot) (ps : List Plotter) (hp : realAxes p)
    (hr : ∀ r ∈ rangesOf ps, realRange r) : realAxes (p.Add ps) := by
  obtain ⟨g1, g2, g3, g4⟩ := Add_bounds p ps
  refine ⟨?_, ?_, ?_, ?_⟩
  · rw [g1]
    exact foldl_goMin_ne_nan _ _ hp.1 fun x hx => by
      obtain ⟨r, hr', rfl⟩ := List.mem_map.mp hx
      exact (hr r hr').1
  · rw [g2]
    exact foldl_goMax_ne_nan _ _ hp.2.1 fun x hx => by
      obtain ⟨r, hr', rfl⟩ := List.mem_map.mp hx
      exact (hr r hr').2.1
  · rw [g3]
    exact foldl_goMin_ne_nan _ _ hp.2.2.1 fun x hx => by
      obtain ⟨r, hr', rfl⟩ := List.mem_map.mp hx
      exact (hr r hr').2.2.1
  · rw [g4]
    exact foldl_goMax_ne_nan _ _ hp.2.2.2 fun x hx => by
      obtain ⟨r, hr', rfl⟩ := List.mem_map.mp hx
      exact (hr r hr').2.2.2

theorem stepRel_Add (p : Plot) (ps : List Plotter) (hp : realAxes p)
    (hr : ∀ r ∈ rangesOf ps, realRange r) : stepRel p (p.Add ps) := by
  obtain ⟨g1, g2, g3, g4⟩ := Add_bounds p ps
  refine ⟨?_, ?_, ?_, ?_⟩
  · rw [g1]
    exact foldl_goMin_le_init _ _ hp.1 fun x hx => by
      obtain ⟨r, hr', rfl⟩ := List.mem_map.mp hx
      exact (hr r hr').1
  · rw [g2]
    exact init_le_foldl_goMax _ _ hp.2.1 fun x hx => by
      obtain ⟨r, hr', rfl⟩ := List.mem_map.mp hx
      exact (hr r hr').2.1
  · rw [g3]
    exact foldl_goMin_le_init _ _ hp.2.2.1 fun x hx => by
      obtain ⟨r, hr', rfl⟩ := List.mem_map.mp hx
      exact (hr r hr').2.2.1
  · rw [g4]
    exact init_le_foldl_goMax _ _ hp.2.2.2 fun x hx => by
      obtain ⟨r, hr', rfl⟩ := List.mem_map.mp hx
      exact (hr r hr').2.2.2

theorem goLe_nan_right (x : GoFloat) : goLe x .nan = false := by
  cases x <;> rfl

theorem rangesOf_append (l₁ l₂ : List Plotter) :
    rangesOf (l₁ ++ l₂) = rangesOf l₁ ++ rangesOf l₂ :=
  List.filterMap_append l₁ l₂ Plotter.dataRange

theorem scanl_head {α β : Type} (f : β → α → β) (b : β) (l : List α) :
    (List.scanl f b l).head? = some b := by
  cases l <;> simp [List.scanl_nil, List.scanl_cons]

theorem chain'_scanl_Add :
    ∀ (pss : List (List Plotter)) (p : Plot), realAxes p →
      (∀ r ∈ rangesOf pss.flatten, realRange r) →
      List.Chain' stepRel (pss.scanl Plot.Add p)
  | [], p, _, _ => by simp [List.scanl_nil]
  | ps :: pss, p, hp, hr => by
    have hps : ∀ r ∈ rangesOf ps, realRange r := by
      intro r h
      refine hr r ?_
      rw [List.flatten_cons, rangesOf_append]
      exact List.mem_append_left _ h
    have hrest : ∀ r ∈ rangesOf pss.flatten, realRange r := by
      intro r h
      refine hr r ?_
      rw [List.flatten_cons, rangesOf_append]
      exact List.mem_append_right _ h
    rw [List.scanl_cons, List.singleton_append, List.chain'_cons']
    constructor
    · intro y hy
      rw [scanl_head] at hy
      cases hy
      exact stepRel_Add p ps hp hps
    · exact chain'_scanl_Add pss (p.Add ps) (realAxes_Add p ps hp hps) hrest

/-- C6: for every sequence of `Add` calls on a plot whose axis bounds
and reported ranges are non-NaN, consecutive states have
non-increasing axis `Min`s and non-decreasing axis `Max`es; the final
bounds are exactly the `goMin`/`goMax` folds of the initial bounds
with every reported range component (widened exactly enough), so they
cover every registered `DataRanger`'s range; and all given plotters
are appended in order whether or not they implement `DataRanger`. -/
theorem Add_sequence_monotone (p : Plot) (pss : List (List Plotter))
    (hp : realAxes p)
    (hr : ∀ r ∈ rangesOf pss.flatten, realRange r) :
    List.Chain' stepRel (pss.scanl Plot.Add p) ∧
    ((pss.foldl Plot.Add p).X.Min =
        ((rangesOf pss.flatten).map DataRange.xmin).foldl goMin p.X.Min ∧
      (pss.foldl Plot.Add p).X.Max =
        ((rangesOf pss.flatten).map DataRange.xmax).foldl goMax p.X.Max ∧
      (pss.foldl Plot.Add p).Y.Min =
        ((rangesOf pss.flatten).map DataRange.ymin).foldl goMin p.Y.Min ∧
      (pss.foldl Plot.Add p).Y.Max =
        ((rangesOf pss.flatten).map DataRange.ymax).foldl goMax p.Y.Max) ∧
    (∀ r ∈ rangesOf pss.flatten,
      goLe (pss.foldl Plot.Add p).X.Min r.xmin = true ∧
        goLe r.xmax (pss.foldl Plot.Add p).X.Max = true ∧
        goLe (pss.foldl Plot.Add p).Y.Min r.ymin = true ∧
        goLe r.ymax (pss.foldl Plot.Add p).Y.Max = true) ∧
    (pss.foldl Plot.Add p).plotters = p.plotters ++ pss.flatten := by
  obtain ⟨h1, h2, h3, h4⟩ := foldl_Add_bounds pss p
  refine ⟨chain'_scanl_Add pss p hp hr, ⟨h1, h2, h3, h4⟩, ?_, foldl_Add_plotters pss p⟩
  intro r hmem
  refine ⟨?_, ?_, ?_, ?_⟩
  · rw [h1]
    exact foldl_goMin_le_mem _ _ _ hp.1
      (fun y hy => by
        obtain ⟨s, hs, rfl⟩ := List.mem_map.mp hy
        exact (hr s hs).1)
      (List.mem_map_of_mem _ hmem)
  · rw [h2]
    exact mem_le_foldl_goMax _ _ _ hp.2.1
      (fun y hy => by
        obtain ⟨s, hs, rfl⟩ := List.mem_map.mp hy
        exact (hr s hs).2.1)
      (List.mem_map_of_mem _ hmem)
  · rw [h3]
    exact foldl_goMin_le_mem _ _ _ hp.2.2.1
      (fun y hy => by
        obtain ⟨s, hs, rfl⟩ := List.mem_map.mp hy
        exact (hr s hs).2.2.1)
      (List.mem_map_of_mem _ hmem)
  · rw [h4]
    exact mem_le_foldl_goMax _ _ _ hp.2.2.2
      (fun y hy => by
        obtain ⟨s, hs, rfl⟩ := List.mem_map.mp hy
        exact (hr s hs).2.2.2)
      (List.mem_map_of_mem _ hmem)

/-- C6, witness: a two-call `Add` sequence with concrete finite
ranges, one plotter without the `DataRanger` capability included. -/
theorem Add_sequence_monotone_witness :
    (realAxes ⟨⟨.val 0, .val 1⟩, ⟨.val 0, .val 1⟩, []⟩ ∧
      ∀ r ∈ rangesOf ([[⟨none, some ⟨.val (-1), .val 2, .val 0, .val 3⟩⟩],
          [⟨some [], none⟩]] : List (List Plotter)).flatten, realRange r) ∧
    (List.Chain' stepRel
      (([[⟨none, some ⟨.val (-1), .val 2, .val 0, .val 3⟩⟩],
          [⟨some [], none⟩]] : List (List Plotter)).scanl Plot.Add
        ⟨⟨.val 0, .val 1⟩, ⟨.val 0, .val 1⟩, []⟩) ∧
    ((([[⟨none, some ⟨.val (-1), .val 2, .val 0, .val 3⟩⟩],
          [⟨some [], none⟩]] : List (List Plotter)).foldl Plot.Add
        ⟨⟨.val 0, .val 1⟩, ⟨.val 0, .val 1⟩, []⟩).X.Min =
        ((rangesOf ([[⟨none, some ⟨.val (-1), .val 2, .val 0, .val 3⟩⟩],
          [⟨some [], none⟩]] : List (List Plotter)).flatten).map
            DataRange.xmin).foldl goMin (GoFloat.val 0) ∧
      (([[⟨none, some ⟨.val (-1), .val 2, .val 0, .val 3⟩⟩],
          [⟨some [], none⟩]] : List (List Plotter)).foldl Plot.Add
        ⟨⟨.val 0, .val 1⟩, ⟨.val 0, .val 1⟩, []⟩).X.Max =
        ((rangesOf ([[⟨none, some ⟨.val (-1), .val 2, .val 0, .val 3⟩⟩],
          [⟨some [], none⟩]] : List (List Plotter)).flatten).map
            DataRange.xmax).foldl goMax (GoFloat.val 1) ∧
      (([[⟨none, some ⟨.val (-1), .val 2, .val 0, .val 3⟩⟩],
          [⟨some [], none⟩]] : List (List Plotter)).foldl Plot.Add
        ⟨⟨.val 0, .val 1⟩, ⟨.val 0, .val 1⟩, []⟩).Y.Min =
        ((rangesOf ([[⟨none, some ⟨.val (-1), .val 2, .val 0, .val 3⟩⟩],
          [⟨some [], none⟩]] : List (List Plotter)).flatten).map
            DataRange.ymin).foldl goMin (GoFloat.val 0) ∧
      (([[⟨none, some ⟨.val (-1), .val 2, .val 0, .val 3⟩⟩],
          [⟨some [], none⟩]] : List (List Plotter)).foldl Plot.Add
        ⟨⟨.val 0, .val 1⟩, ⟨.val 0, .val 1⟩, []⟩).Y.Max =
        ((rangesOf ([[⟨none, some ⟨.val (-1), .val 2, .val 0, .val 3⟩⟩],
          [⟨some [], none⟩]] : List (List Plotter)).flatten).map
            DataRange.ymax).foldl goMax (GoFloat.val 1)) ∧
    (∀ r ∈ rangesOf ([[⟨none, some ⟨.val (-1), .val 2, .val 0, .val 3⟩⟩],
          [⟨some [], none⟩]] : List (List Plotter)).flatten,
      goLe (([[⟨none, some ⟨.val (-1), .val 2, .val 0, .val 3⟩⟩],
          [⟨some [], none⟩]] : List (List Plotter)).foldl Plot.Add
            ⟨⟨.val 0, .val 1⟩, ⟨.val 0, .val 1⟩, []⟩).X.Min r.xmin = true ∧
        goLe r.xmax (([[⟨none, some ⟨.val (-1), .val 2, .val 0, .val 3⟩⟩],
          [⟨some [], none⟩]] : List (List Plotter)).foldl Plot.Add
            ⟨⟨.val 0, .val 1⟩, ⟨.val 0, .val 1⟩, []⟩).X.Max = true ∧
        goLe (([[⟨none, some ⟨.val (-1), .val 2, .val 0, .val 3⟩⟩],
          [⟨some [], none⟩]] : List (List Plotter)).foldl Plot.Add
            ⟨⟨.val 0, .val 1⟩, ⟨.val 0, .val 1⟩, []⟩).Y.Min r.ymin = true ∧
        goLe r.ymax (([[⟨none, some ⟨.val (-1), .val 2, .val 0, .val 3⟩⟩],
          [⟨some [], none⟩]] : List (List Plotter)).foldl Plot.Add
            ⟨⟨.val 0, .val 1⟩, ⟨.val 0, .val 1⟩, []⟩).Y.Max = true) ∧
    (([[⟨none, some ⟨.val (-1), .val 2, .val 0, .val 3⟩⟩],
          [⟨some [], none⟩]] : List (List Plotter)).foldl Plot.Add
        ⟨⟨.val 0, .val 1⟩, ⟨.val 0, .val 1⟩, []⟩).plotters =
      [] ++ ([[⟨none, some ⟨.val (-1), .val 2, .val 0, .val 3⟩⟩],
          [⟨some [], none⟩]] : List (List Plotter)).flatten) :=
  ⟨⟨by decide, by decide⟩,
   Add_sequence_monotone ⟨⟨.val 0, .val 1⟩, ⟨.val 0, .val 1⟩, []⟩
     [[⟨none, some ⟨.val (-1), .val 2, .val 0, .val 3⟩⟩], [⟨some [], none⟩]]
     (by decide) (by decide)⟩

theorem foldl_glyph_append :
    ∀ (l : List Plotter) (acc : List GlyphBox),
      l.foldl
          (fun boxes d =>
            match d.glyphBoxes with
            | some gbs => boxes ++ gbs
            | none => boxes) acc =
        acc ++ (l.map (fun d => d.glyphBoxes.getD [])).flatten
  | [], acc => by simp
  | d :: l, acc => by
    rcases hd : d.glyphBoxes with _ | gbs <;>
      simp only [List.foldl_cons, hd, List.map_cons, List.flatten_cons,
        Option.getD_none, Option.getD_some] <;>
      rw [foldl_glyph_append l] <;>
      simp [List.append_assoc]

/-- C7: the plot's glyph-box collection is the concatenation, in
plotter registration order, of each registered plotter's own glyph-box
sequence; a plotter without the `GlyphBoxer` capability contributes
`[]`; nothing is deduplicated and no axis boxes appear (the definition
reads only `p.plotters`). -/
theorem GlyphBoxes_concat_in_order (p : Plot) :
    p.GlyphBoxes =
      (p.plotters.map (fun d => d.glyphBoxes.getD [])).flatten := by
  unfold Plot.GlyphBoxes
  rw [foldl_glyph_append]
  simp

/-- C9: a NaN component in a range reported to `Add` makes the
corresponding axis bound NaN, and it stays NaN through every later
`Add` call whatever ranges those report; the widening order property
is then unrecoverable, since `goLe` (Go's float64 `<=`) is false
against NaN. -/
theorem Add_nan_poisons (p : Plot) (ps : List Plotter) (d : Plotter)
    (r : DataRange) (hd : d ∈ ps) (hr : d.dataRange = some r)
    (pss : List (List Plotter)) :
    (r.xmin = .nan →
      (pss.foldl Plot.Add (p.Add ps)).X.Min = .nan ∧
        goLe (pss.foldl Plot.Add (p.Add ps)).X.Min p.X.Min = false) ∧
    (r.xmax = .nan →
      (pss.foldl Plot.Add (p.Add ps)).X.Max = .nan ∧
        goLe p.X.Max (pss.foldl Plot.Add (p.Add ps)).X.Max = false) ∧
    (r.ymin = .nan →
      (pss.foldl Plot.Add (p.Add ps)).Y.Min = .nan ∧
        goLe (pss.foldl Plot.Add (p.Add ps)).Y.Min p.Y.Min = false) ∧
    (r.ymax = .nan →
      (pss.foldl Plot.Add (p.Add ps)).Y.Max = .nan ∧
        goLe p.Y.Max (pss.foldl Plot.Add (p.Add ps)).Y.Max = false) := by
  have hmem : r ∈ rangesOf ps := List.mem_filterMap.mpr ⟨d, hd, hr⟩
  obtain ⟨h1, h2, h3, h4⟩ := foldl_Add_bounds pss (p.Add ps)
  obtain ⟨g1, g2, g3, g4⟩ := Add_bounds p ps
  refine ⟨fun hn => ?_, fun hn => ?_, fun hn => ?_, fun hn => ?_⟩
  · have : (p.Add ps).X.Min = .nan := by
      rw [g1]
      exact foldl_goMin_of_nan _ _
        (Or.inl (hn ▸ List.mem_map_of_mem DataRange.xmin hmem))
    have hfin : (pss.foldl Plot.Add (p.Add ps)).X.Min = .nan := by
      rw [h1, this]
      exact foldl_goMin_of_nan _ _ (Or.inr rfl)
    exact ⟨hfin, by rw [hfin]; exact goLe_nan_left _⟩
  · have : (p.Add ps).X.Max = .nan := by
      rw [g2]
      exact foldl_goMax_of_nan _ _
        (Or.inl (hn ▸ List.mem_map_of_mem DataRange.xmax hmem))
    have hfin : (pss.foldl Plot.Add (p.Add ps)).X.Max = .nan := by
      rw [h2, this]
      exact foldl_goMax_of_nan _ _ (Or.inr rfl)
    exact ⟨hfin, by rw [hfin]; exact goLe_nan_right _⟩
  · have : (p.Add ps).Y.Min = .nan := by
      rw [g3]
      exact foldl_goMin_of_nan _ _
        (Or.inl (hn ▸ List.mem_map_of_mem DataRange.ymin hmem))
    have hfin : (pss.foldl Plot.Add (p.Add ps)).Y.Min = .nan := by
      rw [h3, this]
      exact foldl_goMin_of_nan _ _ (Or.inr rfl)
    exact ⟨hfin, by rw [hfin]; exact goLe_nan_left _⟩
  · have : (p.Add ps).Y.Max = .nan := by
      rw [g4]
      exact foldl_goMax_of_nan _ _
        (Or.inl (hn ▸ List.mem_map_of_mem DataRange.ymax hmem))
    have hfin : (pss.foldl Plot.Add (p.Add ps)).Y.Max = .nan := by
      rw [h4, this]
      exact foldl_goMax_of_nan _ _ (Or.inr rfl)
    exact ⟨hfin, by rw [hfin]; exact goLe_nan_right _⟩

/-- C9, witness: one plotter reporting `xmin = NaN`, followed by a
later `Add` with a finite range: the X-axis `Min` is NaN at the end
and the ordering against the initial bound is false. -/
theorem Add_nan_poisons_witness :
    ((⟨none, some ⟨.nan, .val 1, .val 2, .val 3⟩⟩ : Plotter) ∈
        ([⟨none, some ⟨.nan, .val 1, .val 2, .val 3⟩⟩] : List Plotter) ∧
      (⟨none, some ⟨.nan, .val 1, .val 2, .val 3⟩⟩ : Plotter).dataRange =
        some ⟨.nan, .val 1, .val 2, .val 3⟩ ∧
      (⟨.nan, .val 1, .val 2, .val 3⟩ : DataRange).xmin = .nan) ∧
    (([[⟨none, some ⟨.val (-5), .val 5, .val (-5), .val 5⟩⟩]] :
          List (List Plotter)).foldl Plot.Add
        (Plot.Add ⟨⟨.val 0, .val 1⟩, ⟨.val 0, .val 1⟩, []⟩
          [⟨none, some ⟨.nan, .val 1, .val 2, .val 3⟩⟩])).X.Min = .nan ∧
      goLe (([[⟨none, some ⟨.val (-5), .val 5, .val (-5), .val 5⟩⟩]] :
          List (List Plotter)).foldl Plot.Add
        (Plot.Add ⟨⟨.val 0, .val 1⟩, ⟨.val 0, .val 1⟩, []⟩
          [⟨none, some ⟨.nan, .val 1, .val 2, .val 3⟩⟩])).X.Min
        (GoFloat.val 0) = false :=
  ⟨⟨by decide, by decide, by decide⟩,
   (Add_nan_poisons ⟨⟨.val 0, .val 1⟩, ⟨.val 0, .val 1⟩, []⟩
       [⟨none, some ⟨.nan, .val 1, .val 2, .val 3⟩⟩]
       ⟨none, some ⟨.nan, .val 1, .val 2, .val 3⟩⟩
       ⟨.nan, .val 1, .val 2, .val 3⟩
       (by decide) (by decide)
       [[⟨none, some ⟨.val (-5), .val 5, .val (-5), .val 5⟩⟩]]).1 rfl⟩

/-- The observable steps of `Save` (src/plot/plot.go lines 346-376):
backend construction per extension, the `p.Draw` call, and the
deferred finalization (`Save`/`SavePNG`/`SaveJPEG`/`Save`), which Go's
`defer` runs after `Draw` returns. -/
inductive SaveEv where
  | newEps : SaveEv
  | newImg : SaveEv
  | newSvg : SaveEv
  | newPdf : SaveEv
  | draw : SaveEv
  | saveEPS : SaveEv
  | savePNG : SaveEv
  | saveJPEG : SaveEv
  | saveSVG : SaveEv
  | savePDF : SaveEv
deriving DecidableEq, Repr

/-- Go's `strings.ToLower` restricted to the ASCII case mapping, which
coincides with the full Unicode mapping on every extension compared by
`Save`. -/
def goToLower (s : String) : String :=
  String.mk (s.data.map Char.toLower)

/-- The scan of Go's `filepath.Ext` (path/filepath): walk the path
backwards from its end; at a `'.'` return the suffix from the dot on,
at a path separator (or the start) return the empty string.  The first
argument is the remaining characters in reverse order, the second the
suffix accumulated so far. -/
def extFromRev : List Char → List Char → String
  | [], _ => ""
  | c :: rest, acc =>
    if c = '/' then ""
    else if c = '.' then String.mk (c :: acc)
    else extFromRev rest (c :: acc)

/-- Go's `filepath.Ext file` (src/plot/plot.go line 349 calls it on
the save path). -/
def filepathExt (file : String) : String :=
  extFromRev file.data.reverse []

/-- `Save` (src/plot/plot.go lines 346-376) by its observable steps.
`imgNewOk` stands for whether `vecimg.New` (the raster backend
constructor, the only fallible one) succeeds; construction failure
returns its error before any drawing.  A recognized extension builds
the backend, draws, and finalizes, in that order; an unrecognized one
returns the `Unsupported file extension` error with no steps taken. -/
def Save (imgNewOk : Bool) (file : String) : Except String (List SaveEv) :=
  if goToLower (filepathExt file) = ".eps" then
    .ok [.newEps, .draw, .saveEPS]
  else if goToLower (filepathExt file) = ".png" then
    if imgNewOk then .ok [.newImg, .draw, .savePNG]
    else .error "vecimg.New failed"
  else if goToLower (filepathExt file) = ".jpg" ∨
      goToLower (filepathExt file) = ".jpeg" then
    if imgNewOk then .ok [.newImg, .draw, .saveJPEG]
    else .error "vecimg.New failed"
  else if goToLower (filepathExt file) = ".svg" then
    .ok [.newSvg, .draw, .saveSVG]
  else if goToLower (filepathExt file) = ".pdf" then
    .ok [.newPdf, .draw, .savePDF]
  else
    .error ("Unsupported file extension: " ++ goToLower (filepathExt file))

/-- C8: an extension (lower-cased, so `.PNG` behaves as `.png`)
outside the six supported ones yields the unsupported-format error
with no backend built, nothing drawn and nothing finalized; each
supported extension selects its backend and draws before finalizing. -/
theorem Save_dispatch (imgNewOk : Bool) (file : String) :
    (goToLower (filepathExt file) ∉
        [".eps", ".png", ".jpg", ".jpeg", ".svg", ".pdf"] →
      Save imgNewOk file =
        .error ("Unsupported file extension: " ++
          goToLower (filepathExt file))) ∧
    (goToLower (filepathExt file) = ".eps" →
      Save imgNewOk file = .ok [.newEps, .draw, .saveEPS]) ∧
    (goToLower (filepathExt file) = ".png" → imgNewOk = true →
      Save imgNewOk file = .ok [.newImg, .draw, .savePNG]) ∧
    ((goToLower (filepathExt file) = ".jpg" ∨
        goToLower (filepathExt file) = ".jpeg") → imgNewOk = true →
      Save imgNewOk file = .ok [.newImg, .draw, .saveJPEG]) ∧
    (goToLower (filepathExt file) = ".svg" →
      Save imgNewOk file = .ok [.newSvg, .draw, .saveSVG]) ∧
    (goToLower (filepathExt file) = ".pdf" →
      Save imgNewOk file = .ok [.newPdf, .draw, .savePDF]) := by
  refine ⟨?_, ?_, ?_, ?_, ?_, ?_⟩
  · intro h
    simp only [List.mem_cons, List.not_mem_nil, or_false, not_or] at h
    obtain ⟨h1, h2, h3, h4, h5, h6⟩ := h
    simp [Save, h1, h2, h3, h4, h5, h6]
  · intro h
    simp [Save, h]
  · intro h hok
    subst hok
    rw [Save, h]
    rfl
  · intro h hok
    subst hok
    rcases h with h | h <;> rw [Save, h] <;> rfl
  · intro h
    rw [Save, h]
    rfl
  · intro h
    rw [Save, h]
    rfl

/-- C8, witness: `plot.PNG` behaves as `.png` and succeeds through the
raster backend; `plot.bmp` fails with the unsupported-format error and
an empty step trace. -/
theorem Save_dispatch_witness :
    (goToLower (filepathExt "plot.PNG") = ".png" ∧
      Save true "plot.PNG" = .ok [.newImg, .draw, .savePNG]) ∧
    (goToLower (filepathExt "plot.bmp") ∉
        [".eps", ".png", ".jpg", ".jpeg", ".svg", ".pdf"] ∧
      Save true "plot.bmp" =
        .error ("Unsupported file extension: " ++
          goToLower (filepathExt "plot.bmp"))) :=
  ⟨⟨by decide, (Save_dispatch true "plot.PNG").2.2.1 (by decide) rfl⟩,
   ⟨by decide, (Save_dispatch true "plot.bmp").1 (by decide)⟩⟩

/-- The effect of `Draw` (src/plot/plot.go lines 129-154) on the
caller's `DrawArea` rectangle.  The only statement in `Draw` that
writes through the `da` pointer's `Rect` is line 136,
`da.Size.Y -= p.Title.Height(p.Title.Text) - p.Title.Font.Extents().Descent`,
guarded by `p.Title.Text != ""`; the background fill and text draw do
not touch the rectangle, `crop`/`padX`/`padY` return fresh areas, and
`da = padY(...)` only rebinds the local pointer.  The title's rendered
height and the font descent come from the external font machinery and
are taken as parameters. -/
def drawCallerRect (titleText : String) (titleHeight titleDescent : ℚ)
    (da : DrawArea) : DrawArea :=
  if titleText ≠ "" then
    { da with Size := ⟨da.Size.X, da.Size.Y - (titleHeight - titleDescent)⟩ }
  else da

/-- C10: with a non-empty title, `Draw` decreases the caller's
`Size.Y` by exactly the title height minus the font descent and leaves
`Min.X`, `Min.Y` and `Size.X` unchanged; with an empty title the
caller's rectangle is untouched. -/
theorem draw_caller_rect_effect (titleText : String)
    (titleHeight titleDescent : ℚ) (da : DrawArea) :
    (titleText ≠ "" →
      (drawCallerRect titleText titleHeight titleDescent da).Size.Y =
          da.Size.Y - (titleHeight - titleDescent) ∧
        (drawCallerRect titleText titleHeight titleDescent da).Min =
          da.Min ∧
        (drawCallerRect titleText titleHeight titleDescent da).Size.X =
          da.Size.X) ∧
    (titleText = "" →
      drawCallerRect titleText titleHeight titleDescent da = da) := by
  constructor
  · intro ht
    simp [drawCallerRect, ht]
  · intro ht
    simp [drawCallerRect, ht]

/-- C10, witness: the effect evaluated with a concrete title (height
14, descent 3) and with the empty title. -/
theorem draw_caller_rect_effect_witness :
    (("T" : String) ≠ "" ∧
      ((drawCallerRect "T" 14 3 ⟨⟨1, 2⟩, ⟨30, 40⟩⟩).Size.Y =
          (⟨⟨1, 2⟩, ⟨30, 40⟩⟩ : DrawArea).Size.Y - (14 - 3) ∧
        (drawCallerRect "T" 14 3 ⟨⟨1, 2⟩, ⟨30, 40⟩⟩).Min =
          (⟨⟨1, 2⟩, ⟨30, 40⟩⟩ : DrawArea).Min ∧
        (drawCallerRect "T" 14 3 ⟨⟨1, 2⟩, ⟨30, 40⟩⟩).Size.X =
          (⟨⟨1, 2⟩, ⟨30, 40⟩⟩ : DrawArea).Size.X)) ∧
    (("" : String) = "" ∧
      drawCallerRect "" 14 3 ⟨⟨1, 2⟩, ⟨30, 40⟩⟩ = ⟨⟨1, 2⟩, ⟨30, 40⟩⟩) :=
  ⟨⟨by decide,
    (draw_caller_rect_effect "T" 14 3 ⟨⟨1, 2⟩, ⟨30, 40⟩⟩).1 (by decide)⟩,
   ⟨rfl, (draw_caller_rect_effect "" 14 3 ⟨⟨1, 2⟩, ⟨30, 40⟩⟩).2 rfl⟩⟩
